import Mathlib

/-!
Verification of the analytical fin solver and its asynchronous execution wrapper
from `Aerospace_Thermal_Fin_Analyzer.py`.  Floating-point arithmetic is idealized
over the reals; `raise ValueError` becomes `Except.error`.
-/

namespace FinAnalyzer

/-- The seven physical inputs held by the `FinParams` class (source lines 31-41). -/
structure FinParams where
  k : ℝ
  h : ℝ
  t : ℝ
  b : ℝ
  L : ℝ
  Tb : ℝ
  Tinf : ℝ

/-- The default values assigned in `FinParams.__init__`. -/
def FinParams.default : FinParams :=
  ⟨15, 120, 0.003, 0.010, 0.03, 900, 600⟩

/-- The scalar metrics dict `dict(m=m, Q=Q_f, eta=eta, eps=eps, Ac=A_c, P=P)`
returned by `solve_fin` (source line 59). -/
structure Metrics where
  m : ℝ
  Q : ℝ
  eta : ℝ
  eps : ℝ
  Ac : ℝ
  P : ℝ

/-- The `(x, T, metrics)` triple returned by `solve_fin`. -/
structure SolveResult where
  positions : List ℝ
  temperatures : List ℝ
  metrics : Metrics

/-- `np.linspace a b n`: `n` evenly spaced samples over `[a, b]`, both endpoints
included.  For `n = 1` numpy returns `[a]`; the formula below agrees because
division by zero is zero in Lean, and for `n = 0` both give the empty list. -/
noncomputable def linspace (a b : ℝ) (n : ℕ) : List ℝ :=
  (List.range n).map (fun i : ℕ => a + (b - a) * (i : ℝ) / ((n : ℝ) - 1))

/-- The message of the `ValueError` raised by `solve_fin` (source line 48). -/
def errMsg : String :=
  "Parametry muszą być > 0."

open Classical

/-- Shallow embedding of `solve_fin` (source lines 43-59).  The guard mirrors
`if A_c <= 0 or P <= 0 or p.k <= 0 or p.h <= 0 or p.L <= 0: raise ValueError`;
the success branch mirrors the numpy computation of `x`, `T` and the metrics. -/
noncomputable def solve_fin (p : FinParams) (npts : ℕ) : Except String SolveResult :=
  if p.t * p.b ≤ 0 ∨ 2 * (p.t + p.b) ≤ 0 ∨ p.k ≤ 0 ∨ p.h ≤ 0 ∨ p.L ≤ 0 then
    Except.error errMsg
  else
    let m := Real.sqrt (p.h * (2 * (p.t + p.b)) / (p.k * (p.t * p.b)))
    let theta_b := p.Tb - p.Tinf
    let x := linspace 0 p.L npts
    let T := x.map (fun xi =>
      p.Tinf + theta_b * Real.cosh (m * (p.L - xi)) / Real.cosh (m * p.L))
    Except.ok ⟨x, T,
      ⟨m, p.k * (p.t * p.b) * m * theta_b * Real.tanh (m * p.L),
       Real.tanh (m * p.L) / (m * p.L),
       p.k * m / p.h * Real.tanh (m * p.L),
       p.t * p.b, 2 * (p.t + p.b)⟩⟩

namespace FinParams

/-- Cross-sectional area `A_c = t * b` (source line 45). -/
def Ac (p : FinParams) : ℝ := p.t * p.b

/-- Perimeter `P = 2 * (t + b)` (source line 46). -/
def Per (p : FinParams) : ℝ := 2 * (p.t + p.b)

/-- Fin parameter `m = sqrt(h * P / (k * A_c))` (source line 49). -/
noncomputable def m (p : FinParams) : ℝ :=
  Real.sqrt (p.h * p.Per / (p.k * p.Ac))

/-- Excess base temperature `theta_b = Tb - Tinf` (source line 50). -/
def theta_b (p : FinParams) : ℝ := p.Tb - p.Tinf

end FinParams

/-- Temperature at position `xi`: `Tinf + theta_b * cosh(m*(L-xi)) / cosh(m*L)`
(source lines 52-53). -/
noncomputable def tempAt (p : FinParams) (xi : ℝ) : ℝ :=
  p.Tinf + p.theta_b * Real.cosh (p.m * (p.L - xi)) / Real.cosh (p.m * p.L)

/-- The metrics dict of a successful solve, written with the named quantities. -/
noncomputable def metricsOf (p : FinParams) : Metrics :=
  ⟨p.m, p.k * p.Ac * p.m * p.theta_b * Real.tanh (p.m * p.L),
   Real.tanh (p.m * p.L) / (p.m * p.L),
   p.k * p.m / p.h * Real.tanh (p.m * p.L),
   p.Ac, p.Per⟩

/-- With all of `k, h, t, b, L` positive the guard does not fire and `solve_fin`
returns the sampled profile and the metrics. -/
lemma solve_fin_pos_eq (p : FinParams) (n : ℕ)
    (hk : 0 < p.k) (hh : 0 < p.h) (ht : 0 < p.t) (hb : 0 < p.b) (hL : 0 < p.L) :
    solve_fin p n =
      Except.ok ⟨linspace 0 p.L n, (linspace 0 p.L n).map (tempAt p), metricsOf p⟩ := by
  have hAc : 0 < p.t * p.b := mul_pos ht hb
  have hP : 0 < 2 * (p.t + p.b) := by linarith
  rw [solve_fin, if_neg]
  · rfl
  · simp only [not_or, not_le]
    exact ⟨hAc, hP, hk, hh, hL⟩

/-- Length of a `linspace` sample. -/
lemma linspace_length (a b : ℝ) (n : ℕ) : (linspace a b n).length = n := by
  simp only [linspace, List.length_map, List.length_range]

/-- Value of the `i`-th `linspace` sample. -/
lemma linspace_getD (a b : ℝ) (n i : ℕ) (hi : i < n) :
    (linspace a b n).getD i 0 = a + (b - a) * i / ((n : ℝ) - 1) := by
  have hl : i < (linspace a b n).length := by
    rw [linspace_length]; exact hi
  rw [List.getD_eq_getElem?_getD, List.getElem?_eq_getElem hl, Option.getD_some]
  simp only [linspace, List.getElem_map, List.getElem_range]

/-- Reading the `i`-th entry of the mapped temperature list. -/
lemma getD_map_tempAt (p : FinParams) (l : List ℝ) (i : ℕ) (hi : i < l.length) :
    (l.map (tempAt p)).getD i 0 = tempAt p (l.getD i 0) := by
  have hm : i < (l.map (tempAt p)).length := by
    rw [List.length_map]; exact hi
  rw [List.getD_eq_getElem?_getD, List.getD_eq_getElem?_getD,
    List.getElem?_eq_getElem hm, List.getElem?_eq_getElem hi,
    Option.getD_some, Option.getD_some, List.getElem_map]

/-- C1: for `k, h, t, b, L > 0` and `n ≥ 2`, `solve_fin` succeeds and the
temperature at each sampled position `x` is
`Tinf + theta_b * cosh(m*(L-x)) / cosh(m*L)` with `Ac = t*b`, `P = 2*(t+b)`,
`m = sqrt(h*P/(k*Ac))` and `theta_b = Tb - Tinf`. -/
theorem solve_fin_temperature_profile (p : FinParams) (n : ℕ)
    (hk : 0 < p.k) (hh : 0 < p.h) (ht : 0 < p.t) (hb : 0 < p.b) (hL : 0 < p.L)
    (_hn : 2 ≤ n) :
    ∃ r : SolveResult, solve_fin p n = Except.ok r ∧
      ∀ i, i < n →
        r.temperatures.getD i 0 =
          p.Tinf + p.theta_b * Real.cosh (p.m * (p.L - r.positions.getD i 0)) /
            Real.cosh (p.m * p.L) := by
  refine ⟨_, solve_fin_pos_eq p n hk hh ht hb hL, fun i hi => ?_⟩
  have hlen : i < (linspace 0 p.L n).length := by
    rw [linspace_length]; exact hi
  show ((linspace 0 p.L n).map (tempAt p)).getD i 0 =
    p.Tinf + p.theta_b * Real.cosh (p.m * (p.L - (linspace 0 p.L n).getD i 0)) /
      Real.cosh (p.m * p.L)
  rw [getD_map_tempAt p _ i hlen]
  rfl

/-- Witness for C1 at the default parameters and the default sample count. -/
theorem solve_fin_temperature_profile_witness :
    (0 : ℝ) < FinParams.default.k ∧ (0 : ℝ) < FinParams.default.h ∧
    (0 : ℝ) < FinParams.default.t ∧ (0 : ℝ) < FinParams.default.b ∧
    (0 : ℝ) < FinParams.default.L ∧ 2 ≤ 300 ∧
    (∃ r : SolveResult, solve_fin FinParams.default 300 = Except.ok r ∧
      ∀ i, i < 300 →
        r.temperatures.getD i 0 =
          FinParams.default.Tinf + FinParams.default.theta_b *
            Real.cosh (FinParams.default.m *
              (FinParams.default.L - r.positions.getD i 0)) /
            Real.cosh (FinParams.default.m * FinParams.default.L)) :=
  ⟨by norm_num [FinParams.default], by norm_num [FinParams.default],
   by norm_num [FinParams.default], by norm_num [FinParams.default],
   by norm_num [FinParams.default], by norm_num,
   solve_fin_temperature_profile FinParams.default 300
     (by norm_num [FinParams.default]) (by norm_num [FinParams.default])
     (by norm_num [FinParams.default]) (by norm_num [FinParams.default])
     (by norm_num [FinParams.default]) (by norm_num)⟩

/-- C2: for `k, h, t, b, L > 0`, the metrics bundle of a successful solve is
exactly `{m, Q = k*Ac*m*theta_b*tanh(m*L), eta = tanh(m*L)/(m*L),
eps = (k*m/h)*tanh(m*L), Ac = t*b, P = 2*(t+b)}`. -/
theorem solve_fin_metrics_exact (p : FinParams) (n : ℕ)
    (hk : 0 < p.k) (hh : 0 < p.h) (ht : 0 < p.t) (hb : 0 < p.b) (hL : 0 < p.L) :
    ∃ r : SolveResult, solve_fin p n = Except.ok r ∧
      r.metrics = ⟨p.m, p.k * p.Ac * p.m * p.theta_b * Real.tanh (p.m * p.L),
        Real.tanh (p.m * p.L) / (p.m * p.L),
        p.k * p.m / p.h * Real.tanh (p.m * p.L),
        p.t * p.b, 2 * (p.t + p.b)⟩ :=
  ⟨_, solve_fin_pos_eq p n hk hh ht hb hL, rfl⟩

/-- Witness for C2 at the default parameters. -/
theorem solve_fin_metrics_exact_witness :
    (0 : ℝ) < FinParams.default.k ∧ (0 : ℝ) < FinParams.default.h ∧
    (0 : ℝ) < FinParams.default.t ∧ (0 : ℝ) < FinParams.default.b ∧
    (0 : ℝ) < FinParams.default.L ∧
    (∃ r : SolveResult, solve_fin FinParams.default 300 = Except.ok r ∧
      r.metrics = ⟨FinParams.default.m,
        FinParams.default.k * FinParams.default.Ac * FinParams.default.m *
          FinParams.default.theta_b *
          Real.tanh (FinParams.default.m * FinParams.default.L),
        Real.tanh (FinParams.default.m * FinParams.default.L) /
          (FinParams.default.m * FinParams.default.L),
        FinParams.default.k * FinParams.default.m / FinParams.default.h *
          Real.tanh (FinParams.default.m * FinParams.default.L),
        FinParams.default.t * FinParams.default.b,
        2 * (FinParams.default.t + FinParams.default.b)⟩) :=
  ⟨by norm_num [FinParams.default], by norm_num [FinParams.default],
   by norm_num [FinParams.default], by norm_num [FinParams.default],
   by norm_num [FinParams.default],
   solve_fin_metrics_exact FinParams.default 300
     (by norm_num [FinParams.default]) (by norm_num [FinParams.default])
     (by norm_num [FinParams.default]) (by norm_num [FinParams.default])
     (by norm_num [FinParams.default])⟩

/-- C10: for `k, h, t, b, L > 0`, the metrics of a successful solve satisfy the
exact algebraic relation `Q = eps * h * Ac * (Tb - Tinf)`. -/
theorem solve_fin_Q_eps_relation (p : FinParams) (n : ℕ)
    (hk : 0 < p.k) (hh : 0 < p.h) (ht : 0 < p.t) (hb : 0 < p.b) (hL : 0 < p.L) :
    ∃ r : SolveResult, solve_fin p n = Except.ok r ∧
      r.metrics.Q = r.metrics.eps * p.h * r.metrics.Ac * (p.Tb - p.Tinf) := by
  refine ⟨_, solve_fin_pos_eq p n hk hh ht hb hL, ?_⟩
  show p.k * p.Ac * p.m * p.theta_b * Real.tanh (p.m * p.L) =
    p.k * p.m / p.h * Real.tanh (p.m * p.L) * p.h * p.Ac * (p.Tb - p.Tinf)
  rw [FinParams.theta_b]
  field_simp
  ring

/-- Witness for C10 at the default parameters. -/
theorem solve_fin_Q_eps_relation_witness :
    (0 : ℝ) < FinParams.default.k ∧ (0 : ℝ) < FinParams.default.h ∧
    (0 : ℝ) < FinParams.default.t ∧ (0 : ℝ) < FinParams.default.b ∧
    (0 : ℝ) < FinParams.default.L ∧
    (∃ r : SolveResult, solve_fin FinParams.default 300 = Except.ok r ∧
      r.metrics.Q = r.metrics.eps * FinParams.default.h * r.metrics.Ac *
        (FinParams.default.Tb - FinParams.default.Tinf)) :=
  ⟨by norm_num [FinParams.default], by norm_num [FinParams.default],
   by norm_num [FinParams.default], by norm_num [FinParams.default],
   by norm_num [FinParams.default],
   solve_fin_Q_eps_relation FinParams.default 300
     (by norm_num [FinParams.default]) (by norm_num [FinParams.default])
     (by norm_num [FinParams.default]) (by norm_num [FinParams.default])
     (by norm_num [FinParams.default])⟩

/-- The validation guard `A_c <= 0 or P <= 0 or k <= 0 or h <= 0 or L <= 0`
fires exactly when one of `k, h, t, b, L` is nonpositive. -/
lemma guard_iff_fields (p : FinParams) :
    (p.t * p.b ≤ 0 ∨ 2 * (p.t + p.b) ≤ 0 ∨ p.k ≤ 0 ∨ p.h ≤ 0 ∨ p.L ≤ 0) ↔
      (p.k ≤ 0 ∨ p.h ≤ 0 ∨ p.t ≤ 0 ∨ p.b ≤ 0 ∨ p.L ≤ 0) := by
  constructor
  · rintro (h1 | h2 | h3 | h4 | h5)
    · rcases le_or_lt p.t 0 with ht | ht
      · exact Or.inr (Or.inr (Or.inl ht))
      · exact Or.inr (Or.inr (Or.inr (Or.inl (by nlinarith))))
    · rcases le_or_lt p.t 0 with ht | ht
      · exact Or.inr (Or.inr (Or.inl ht))
      · exact Or.inr (Or.inr (Or.inr (Or.inl (by linarith))))
    · exact Or.inl h3
    · exact Or.inr (Or.inl h4)
    · exact Or.inr (Or.inr (Or.inr (Or.inr h5)))
  · rintro (h1 | h2 | h3 | h4 | h5)
    · exact Or.inr (Or.inr (Or.inl h1))
    · exact Or.inr (Or.inr (Or.inr (Or.inl h2)))
    · rcases le_or_lt p.b 0 with hb | hb
      · exact Or.inr (Or.inl (by linarith))
      · exact Or.inl (by nlinarith)
    · rcases le_or_lt p.t 0 with ht | ht
      · exact Or.inr (Or.inl (by linarith))
      · exact Or.inl (by nlinarith)
    · exact Or.inr (Or.inr (Or.inr (Or.inr h5)))

/-- The invalid-input example of the spec: `t = 0`, every other field default. -/
def tZeroParams : FinParams := ⟨15, 120, 0, 0.01, 0.03, 900, 600⟩

/-- C3 counterexample: at the all-positive default parameters with `n = 1 < 2`,
`solve_fin` succeeds, while the claim requires an `InvalidParameter` failure
whenever `n < 2` (the code never validates `npts`). -/
theorem solve_fin_accepts_n_one :
    1 < 2 ∧ ∃ r : SolveResult, solve_fin FinParams.default 1 = Except.ok r :=
  ⟨by norm_num,
   ⟨_, solve_fin_pos_eq FinParams.default 1 (by norm_num [FinParams.default])
     (by norm_num [FinParams.default]) (by norm_num [FinParams.default])
     (by norm_num [FinParams.default]) (by norm_num [FinParams.default])⟩⟩

/-- C3 amended: `solve_fin` fails — always with the one fixed message
`"Parametry muszą być > 0."`, which names no field — exactly when some of
`k, h, t, b, L` is ≤ 0; the sample count is never validated.  In particular
the spec's `t = 0` example fails with that message for every `n`. -/
theorem solve_fin_invalid_iff :
    (∀ (p : FinParams) (n : ℕ),
        solve_fin p n = Except.error errMsg ↔
          (p.k ≤ 0 ∨ p.h ≤ 0 ∨ p.t ≤ 0 ∨ p.b ≤ 0 ∨ p.L ≤ 0)) ∧
    (∀ n : ℕ, solve_fin tZeroParams n = Except.error errMsg) := by
  constructor
  · intro p n
    by_cases hc : p.t * p.b ≤ 0 ∨ 2 * (p.t + p.b) ≤ 0 ∨ p.k ≤ 0 ∨ p.h ≤ 0 ∨ p.L ≤ 0
    · rw [solve_fin, if_pos hc]
      exact iff_of_true rfl ((guard_iff_fields p).mp hc)
    · rw [solve_fin, if_neg hc]
      exact iff_of_false (by simp) (fun hf => hc ((guard_iff_fields p).mpr hf))
  · intro n
    rw [solve_fin, if_pos]
    norm_num [tZeroParams]

/-- C7: for positive parameters and `n ≥ 2`, the returned `positions` are `n`
evenly spaced coordinates covering `[0, L]` inclusive — first sample `0`, last
sample `L`, consecutive samples `L/(n-1)` apart — and `temperatures` has the
same length `n`. -/
theorem solve_fin_positions_sampling (p : FinParams) (n : ℕ)
    (hk : 0 < p.k) (hh : 0 < p.h) (ht : 0 < p.t) (hb : 0 < p.b) (hL : 0 < p.L)
    (hn : 2 ≤ n) :
    ∃ r : SolveResult, solve_fin p n = Except.ok r ∧
      r.positions.length = n ∧ r.temperatures.length = n ∧
      r.positions.getD 0 0 = 0 ∧ r.positions.getD (n - 1) 0 = p.L ∧
      (∀ i, i + 1 < n →
        r.positions.getD (i + 1) 0 - r.positions.getD i 0 = p.L / ((n : ℝ) - 1)) := by
  have hn1 : ((n : ℝ) - 1) ≠ 0 := by
    have h2 : (2 : ℝ) ≤ (n : ℝ) := by exact_mod_cast hn
    linarith
  refine ⟨_, solve_fin_pos_eq p n hk hh ht hb hL, ?_, ?_, ?_, ?_, ?_⟩
  · exact linspace_length 0 p.L n
  · show ((linspace 0 p.L n).map (tempAt p)).length = n
    rw [List.length_map]; exact linspace_length 0 p.L n
  · show (linspace 0 p.L n).getD 0 0 = 0
    rw [linspace_getD 0 p.L n 0 (by omega)]
    norm_num
  · show (linspace 0 p.L n).getD (n - 1) 0 = p.L
    rw [linspace_getD 0 p.L n (n - 1) (by omega)]
    have hcast : ((n - 1 : ℕ) : ℝ) = (n : ℝ) - 1 := by
      have h1 : 1 ≤ n := by omega
      push_cast [h1]
      ring
    rw [hcast]
    field_simp
  · intro i hi
    show (linspace 0 p.L n).getD (i + 1) 0 - (linspace 0 p.L n).getD i 0 =
      p.L / ((n : ℝ) - 1)
    rw [linspace_getD 0 p.L n (i + 1) (by omega), linspace_getD 0 p.L n i (by omega)]
    push_cast
    field_simp
    ring

/-- Witness for C7 at the default parameters and sample count. -/
theorem solve_fin_positions_sampling_witness :
    (0 : ℝ) < FinParams.default.k ∧ (0 : ℝ) < FinParams.default.h ∧
    (0 : ℝ) < FinParams.default.t ∧ (0 : ℝ) < FinParams.default.b ∧
    (0 : ℝ) < FinParams.default.L ∧ 2 ≤ 300 ∧
    (∃ r : SolveResult, solve_fin FinParams.default 300 = Except.ok r ∧
      r.positions.length = 300 ∧ r.temperatures.length = 300 ∧
      r.positions.getD 0 0 = 0 ∧ r.positions.getD (300 - 1) 0 = FinParams.default.L ∧
      (∀ i, i + 1 < 300 →
        r.positions.getD (i + 1) 0 - r.positions.getD i 0 =
          FinParams.default.L / ((300 : ℝ) - 1))) :=
  ⟨by norm_num [FinParams.default], by norm_num [FinParams.default],
   by norm_num [FinParams.default], by norm_num [FinParams.default],
   by norm_num [FinParams.default], by norm_num,
   by
    have h := solve_fin_positions_sampling FinParams.default 300
      (by norm_num [FinParams.default]) (by norm_num [FinParams.default])
      (by norm_num [FinParams.default]) (by norm_num [FinParams.default])
      (by norm_num [FinParams.default]) (by norm_num)
    simpa using h⟩

/-- One solver run together with the foreground mutations interleaved with it.
`SolverThread.__init__` (source line 67) stores the caller's `FinParams` object
itself — `self.params = params` is reference aliasing, not a copy — so
`solve_fin(self.params)` in `SolverThread.run` reads the fields as they stand
when the thread body executes, and `FinUI.on_done` (source line 414) builds
`_last` from `self.params`, the current parameter model at completion time.
`mutBeforeRun` collects the mutations the foreground applies between submission
and the thread body's field reads, `mutBeforeDone` those applied between the
solve and the `done` handler. -/
structure RunTrace where
  init : FinParams
  mutBeforeRun : FinParams → FinParams
  mutBeforeDone : FinParams → FinParams

/-- The parameters actually read by `solve_fin(self.params)` in the worker. -/
def RunTrace.solverInputs (tr : RunTrace) : FinParams :=
  tr.mutBeforeRun tr.init

/-- The outcome of the worker's solve. -/
noncomputable def RunTrace.outcome (tr : RunTrace) (n : ℕ) : Except String SolveResult :=
  solve_fin tr.solverInputs n

/-- The parameter values that `on_done` records in the `_last` snapshot:
`dict(k=self.params.k, ...)` reads the model as of completion time. -/
def RunTrace.snapshotParams (tr : RunTrace) : FinParams :=
  tr.mutBeforeDone tr.solverInputs

/-- A mutation the preset dialog can apply: set the length to `0.050`. -/
def setL05 (q : FinParams) : FinParams :=
  { q with L := 0.05 }

/-- A run submitted with the defaults whose `L` is mutated in flight. -/
def aliasTrace : RunTrace :=
  ⟨FinParams.default, setL05, id⟩

/-- C4 counterexample: mutating the parameter model after submission but before
completion DOES affect the run.  With `L` mutated from `0.03` to `0.05` while
the run is in flight, both the parameters the solver reads and the parameters
recorded in the snapshot differ from the submission-time parameters. -/
theorem solver_alias_counterexample :
    RunTrace.solverInputs aliasTrace ≠ aliasTrace.init ∧
    RunTrace.snapshotParams aliasTrace ≠ aliasTrace.init := by
  constructor
  · intro hcontra
    have hL := congrArg FinParams.L hcontra
    norm_num [aliasTrace, setL05, FinParams.default, RunTrace.solverInputs] at hL
  · intro hcontra
    have hL := congrArg FinParams.L hcontra
    norm_num [aliasTrace, setL05, FinParams.default, RunTrace.snapshotParams,
      RunTrace.solverInputs] at hL

/-- C4 amended: the worker aliases the mutable parameter object instead of
copying it.  The solve consumes the parameter model as mutated up to the
thread's field reads — so any in-flight mutation that changes the parameters
makes the solver inputs differ from the submission-time values — and the
snapshot records the model as further mutated up to completion time. -/
theorem solver_alias_behaviour (init : FinParams) (f g : FinParams → FinParams)
    (n : ℕ) (hf : f init ≠ init) :
    RunTrace.outcome ⟨init, f, g⟩ n = solve_fin (f init) n ∧
    RunTrace.solverInputs ⟨init, f, g⟩ ≠ init ∧
    RunTrace.snapshotParams ⟨init, f, g⟩ = g (f init) :=
  ⟨rfl, hf, rfl⟩

/-- Witness for the amended C4 at the concrete in-flight `L` mutation. -/
theorem solver_alias_behaviour_witness :
    setL05 FinParams.default ≠ FinParams.default ∧
    (RunTrace.outcome ⟨FinParams.default, setL05, id⟩ 300 =
        solve_fin (setL05 FinParams.default) 300 ∧
      RunTrace.solverInputs ⟨FinParams.default, setL05, id⟩ ≠ FinParams.default ∧
      RunTrace.snapshotParams ⟨FinParams.default, setL05, id⟩ =
        id (setL05 FinParams.default)) := by
  have hf : setL05 FinParams.default ≠ FinParams.default := by
    intro hcontra
    have hL := congrArg FinParams.L hcontra
    norm_num [setL05, FinParams.default] at hL
  exact ⟨hf, solver_alias_behaviour FinParams.default setL05 id 300 hf⟩

/-- The worker handle: `self._worker` with its `isRunning()` flag. -/
structure Worker where
  isRunning : Bool

/-- The guard state of `FinUI`: `self._worker` is `none` before the first run. -/
structure GuardState where
  worker : Option Worker

/-- The `on_run` guard test `self._worker and self._worker.isRunning()`. -/
def GuardState.running (s : GuardState) : Bool :=
  match s.worker with
  | none => false
  | some w => w.isRunning

/-- One click of RUN, `FinUI.on_run` (source lines 403-410): returns the next
guard state, the number of solver threads started, and whether the
informational "Solver już pracuje." notice was shown. -/
def on_run (s : GuardState) : GuardState × ℕ × Bool :=
  if s.running then (s, 0, true)
  else (⟨some ⟨true⟩⟩, 1, false)

/-- C5: a submission while the guard is Running is rejected — no new solver
thread is dispatched, the state is unchanged and the informational notice is
shown — while a submission in the Idle state dispatches exactly one solver run
and moves the guard to Running, with no notice. -/
theorem on_run_single_flight (s : GuardState) :
    (s.running = true → on_run s = (s, 0, true)) ∧
    (s.running = false →
      (on_run s).2.1 = 1 ∧ (on_run s).1.running = true ∧ (on_run s).2.2 = false) := by
  constructor
  · intro h
    rw [on_run, if_pos h]
  · intro h
    rw [on_run, if_neg (by simp [h])]
    exact ⟨rfl, rfl, rfl⟩

/-- Witness for C5: a running guard rejects, an idle guard dispatches once. -/
theorem on_run_single_flight_witness :
    (on_run ⟨some ⟨true⟩⟩ = (⟨some ⟨true⟩⟩, 0, true)) ∧
    ((on_run ⟨none⟩).2.1 = 1 ∧ (on_run ⟨none⟩).1.running = true ∧
      (on_run ⟨none⟩).2.2 = false) :=
  ⟨(on_run_single_flight ⟨some ⟨true⟩⟩).1 rfl,
   (on_run_single_flight ⟨none⟩).2 rfl⟩

/-- The two pyqtSignals a `SolverThread` can emit. -/
inductive ThreadEvent where
  | done : SolveResult → ThreadEvent
  | failed : String → ThreadEvent

/-- `SolverThread.run` (source lines 68-73): try the solve and emit `done` with
the payload, or catch the exception and emit `failed` with its description.
Being a total function into `ThreadEvent`, it emits exactly one event and no
exception escapes it. -/
noncomputable def SolverThread.run (p : FinParams) (n : ℕ) : ThreadEvent :=
  match solve_fin p n with
  | Except.ok r => ThreadEvent.done r
  | Except.error e => ThreadEvent.failed e

/-- C6: every run yields exactly one completion event — `done` with the result
when the solve succeeds, `failed` with the error description when it raises —
and the worker itself never propagates the exception. -/
theorem run_exactly_one_event (p : FinParams) (n : ℕ) :
    (∃ r, solve_fin p n = Except.ok r ∧ SolverThread.run p n = ThreadEvent.done r) ∨
    (∃ e, solve_fin p n = Except.error e ∧
      SolverThread.run p n = ThreadEvent.failed e) := by
  cases h : solve_fin p n with
  | ok r =>
    exact Or.inl ⟨r, rfl, by rw [SolverThread.run, h]⟩
  | error e =>
    exact Or.inr ⟨e, rfl, by rw [SolverThread.run, h]⟩

/-- On nonnegative arguments, `sinh x ≤ x * cosh x` (`x * cosh x - sinh x` has
nonnegative derivative `x * sinh x` and vanishes at `0`). -/
lemma sinh_le_mul_cosh {x : ℝ} (hx : 0 ≤ x) : Real.sinh x ≤ x * Real.cosh x := by
  have key : ∀ y : ℝ, HasDerivAt (fun z : ℝ => z * Real.cosh z - Real.sinh z)
      (y * Real.sinh y) y := by
    intro y
    have h1 : HasDerivAt (fun z : ℝ => z * Real.cosh z)
        (1 * Real.cosh y + y * Real.sinh y) y :=
      (hasDerivAt_id y).mul (Real.hasDerivAt_cosh y)
    have h2 := h1.sub (Real.hasDerivAt_sinh y)
    convert h2 using 1
    ring
  have hmono : MonotoneOn (fun z : ℝ => z * Real.cosh z - Real.sinh z)
      (Set.Ici (0 : ℝ)) := by
    refine monotoneOn_of_deriv_nonneg (convex_Ici 0) ?_ ?_ ?_
    · exact ((continuous_id.mul Real.continuous_cosh).sub
        Real.continuous_sinh).continuousOn
    · intro y _
      exact (key y).differentiableAt.differentiableWithinAt
    · intro y hy
      rw [interior_Ici] at hy
      rw [(key y).deriv]
      exact mul_nonneg hy.le (Real.sinh_pos_iff.mpr hy).le
  have h0 := hmono Set.left_mem_Ici (Set.mem_Ici.mpr hx) hx
  simp only [Real.cosh_zero, Real.sinh_zero, zero_mul, sub_zero] at h0
  linarith

/-- `tanh` is positive on positive arguments. -/
lemma tanh_pos_of_pos {x : ℝ} (hx : 0 < x) : 0 < Real.tanh x := by
  rw [Real.tanh_eq_sinh_div_cosh]
  exact div_pos (Real.sinh_pos_iff.mpr hx) (Real.cosh_pos x)

/-- `tanh x ≤ x` on nonnegative arguments. -/
lemma tanh_le_self {x : ℝ} (hx : 0 ≤ x) : Real.tanh x ≤ x := by
  rw [Real.tanh_eq_sinh_div_cosh, div_le_iff₀ (Real.cosh_pos x)]
  exact sinh_le_mul_cosh hx

/-- The fin parameter is positive when all physical inputs are. -/
lemma m_pos (p : FinParams)
    (hk : 0 < p.k) (hh : 0 < p.h) (ht : 0 < p.t) (hb : 0 < p.b) : 0 < p.m := by
  unfold FinParams.m
  apply Real.sqrt_pos.mpr
  apply div_pos
  · apply mul_pos hh
    unfold FinParams.Per
    linarith
  · apply mul_pos hk
    unfold FinParams.Ac
    exact mul_pos ht hb

/-- The sampled temperature profile is antitone in the position for a hot base:
farther positions (still within the fin) are no hotter. -/
lemma tempAt_antitone (p : FinParams) (hm : 0 ≤ p.m) (hθ : 0 ≤ p.theta_b)
    {x y : ℝ} (hxy : x ≤ y) (hyL : y ≤ p.L) :
    tempAt p y ≤ tempAt p x := by
  unfold tempAt
  have hc : Real.cosh (p.m * (p.L - y)) ≤ Real.cosh (p.m * (p.L - x)) := by
    rw [Real.cosh_le_cosh]
    have h1 : 0 ≤ p.m * (p.L - y) := mul_nonneg hm (by linarith)
    have h2 : 0 ≤ p.m * (p.L - x) := mul_nonneg hm (by linarith)
    rw [abs_of_nonneg h1, abs_of_nonneg h2]
    apply mul_le_mul_of_nonneg_left _ hm
    linarith
  have hcL : 0 < Real.cosh (p.m * p.L) := Real.cosh_pos _
  apply add_le_add_left
  rw [div_le_div_iff_of_pos_right hcL]
  exact mul_le_mul_of_nonneg_left hc hθ

/-- C8: for positive parameters with `Tb > Tinf`, the returned temperatures are
monotonically non-increasing along the positions. -/
theorem solve_fin_temperatures_antitone (p : FinParams) (n : ℕ)
    (hk : 0 < p.k) (hh : 0 < p.h) (ht : 0 < p.t) (hb : 0 < p.b) (hL : 0 < p.L)
    (hTb : p.Tinf < p.Tb) :
    ∃ r : SolveResult, solve_fin p n = Except.ok r ∧
      ∀ i, i + 1 < n → r.temperatures.getD (i + 1) 0 ≤ r.temperatures.getD i 0 := by
  refine ⟨_, solve_fin_pos_eq p n hk hh ht hb hL, fun i hi => ?_⟩
  have hlen1 : i + 1 < (linspace 0 p.L n).length := by
    rw [linspace_length]; omega
  have hlen0 : i < (linspace 0 p.L n).length := by
    rw [linspace_length]; omega
  show ((linspace 0 p.L n).map (tempAt p)).getD (i + 1) 0 ≤
    ((linspace 0 p.L n).map (tempAt p)).getD i 0
  rw [getD_map_tempAt p _ _ hlen1, getD_map_tempAt p _ _ hlen0,
    linspace_getD 0 p.L n (i + 1) (by omega), linspace_getD 0 p.L n i (by omega)]
  have hn1 : (0 : ℝ) < (n : ℝ) - 1 := by
    have h2 : (2 : ℝ) ≤ (n : ℝ) := by exact_mod_cast (by omega : 2 ≤ n)
    linarith
  have hθ : 0 ≤ p.theta_b := by
    unfold FinParams.theta_b
    linarith
  apply tempAt_antitone p (Real.sqrt_nonneg _) hθ
  · have hii : (i : ℝ) ≤ (i : ℝ) + 1 := by linarith
    have hstep : (p.L - 0) * (i : ℝ) / ((n : ℝ) - 1) ≤
        (p.L - 0) * ((i : ℝ) + 1) / ((n : ℝ) - 1) := by
      rw [div_le_div_iff_of_pos_right hn1]
      apply mul_le_mul_of_nonneg_left hii
      linarith
    push_cast
    linarith
  · have hub : ((i : ℝ) + 1) + 1 ≤ (n : ℝ) := by
      exact_mod_cast (by omega : i + 2 ≤ n)
    have : (p.L - 0) * ((i : ℝ) + 1) / ((n : ℝ) - 1) ≤ p.L := by
      rw [div_le_iff₀ hn1]
      nlinarith
    push_cast
    linarith

/-- Witness for C8 at the default parameters and sample count. -/
theorem solve_fin_temperatures_antitone_witness :
    (0 : ℝ) < FinParams.default.k ∧ (0 : ℝ) < FinParams.default.h ∧
    (0 : ℝ) < FinParams.default.t ∧ (0 : ℝ) < FinParams.default.b ∧
    (0 : ℝ) < FinParams.default.L ∧ FinParams.default.Tinf < FinParams.default.Tb ∧
    (∃ r : SolveResult, solve_fin FinParams.default 300 = Except.ok r ∧
      ∀ i, i + 1 < 300 →
        r.temperatures.getD (i + 1) 0 ≤ r.temperatures.getD i 0) :=
  ⟨by norm_num [FinParams.default], by norm_num [FinParams.default],
   by norm_num [FinParams.default], by norm_num [FinParams.default],
   by norm_num [FinParams.default], by norm_num [FinParams.default],
   solve_fin_temperatures_antitone FinParams.default 300
     (by norm_num [FinParams.default]) (by norm_num [FinParams.default])
     (by norm_num [FinParams.default]) (by norm_num [FinParams.default])
     (by norm_num [FinParams.default]) (by norm_num [FinParams.default])⟩

/-- C9: for positive parameters, the efficiency `eta = tanh(m*L)/(m*L)` of a
successful solve lies in `(0, 1]`. -/
theorem solve_fin_eta_unit_interval (p : FinParams) (n : ℕ)
    (hk : 0 < p.k) (hh : 0 < p.h) (ht : 0 < p.t) (hb : 0 < p.b) (hL : 0 < p.L) :
    ∃ r : SolveResult, solve_fin p n = Except.ok r ∧
      0 < r.metrics.eta ∧ r.metrics.eta ≤ 1 := by
  refine ⟨_, solve_fin_pos_eq p n hk hh ht hb hL, ?_, ?_⟩
  all_goals
    have hm : 0 < p.m := m_pos p hk hh ht hb
    have hmL : 0 < p.m * p.L := mul_pos hm hL
  · show 0 < Real.tanh (p.m * p.L) / (p.m * p.L)
    exact div_pos (tanh_pos_of_pos hmL) hmL
  · show Real.tanh (p.m * p.L) / (p.m * p.L) ≤ 1
    rw [div_le_one hmL]
    exact tanh_le_self hmL.le

/-- Witness for C9 at the default parameters. -/
theorem solve_fin_eta_unit_interval_witness :
    (0 : ℝ) < FinParams.default.k ∧ (0 : ℝ) < FinParams.default.h ∧
    (0 : ℝ) < FinParams.default.t ∧ (0 : ℝ) < FinParams.default.b ∧
    (0 : ℝ) < FinParams.default.L ∧
    (∃ r : SolveResult, solve_fin FinParams.default 300 = Except.ok r ∧
      0 < r.metrics.eta ∧ r.metrics.eta ≤ 1) :=
  ⟨by norm_num [FinParams.default], by norm_num [FinParams.default],
   by norm_num [FinParams.default], by norm_num [FinParams.default],
   by norm_num [FinParams.default],
   solve_fin_eta_unit_interval FinParams.default 300
     (by norm_num [FinParams.default]) (by norm_num [FinParams.default])
     (by norm_num [FinParams.default]) (by norm_num [FinParams.default])
     (by norm_num [FinParams.default])⟩

end FinAnalyzer
